import Mathlib

/-!
Verification development for the CBB matchup analyzer.

The repository's core pipeline (scripts/stats_builder.py, scripts/matchup_model.py,
scripts/value_finder.py) is shallowly embedded below.  Python floats are modelled
as rationals (ℚ) in the bet-selection / odds arithmetic, and as reals (ℝ) in the
statistical projection code, where square roots and the exponential appear.
Python dicts are modelled as insertion-ordered association lists, matching
CPython's guaranteed dict ordering; `raise ValueError` is modelled as
`Except.error`.
-/

namespace CBB

/-! ## value_finder.py — odds and Kelly arithmetic (exact, over ℚ) -/

/-- `american_to_implied_prob` from scripts/value_finder.py: convert American
odds to the bookmaker's implied probability. -/
def american_to_implied_prob (odds : ℤ) : ℚ :=
  if odds < 0 then
    (|odds| : ℚ) / ((|odds| : ℚ) + 100)
  else
    100 / ((odds : ℚ) + 100)

/-- The net decimal payout `b` per unit stake computed at the top of
`compute_kelly_fraction` in scripts/value_finder.py. -/
def kelly_b (odds : ℤ) : ℚ :=
  if odds < 0 then 100 / (|odds| : ℚ) else (odds : ℚ) / 100

/-- `compute_kelly_fraction` from scripts/value_finder.py with its cap argument
explicit (the source declares `max_fraction` with default value 0.05). -/
def compute_kelly_fraction_capped (model_win_prob : ℚ) (odds : ℤ) (max_fraction : ℚ) : ℚ :=
  if kelly_b odds ≤ 0 then 0
  else
    max 0 (min ((kelly_b odds * model_win_prob - (1 - model_win_prob)) / kelly_b odds)
      max_fraction)

/-- `compute_kelly_fraction` applied at its default cap of 0.05, which is how
every call site in scripts/value_finder.py invokes it. -/
def compute_kelly_fraction (model_win_prob : ℚ) (odds : ℤ) : ℚ :=
  compute_kelly_fraction_capped model_win_prob odds (5 / 100)

/-! ## value_finder.py — BetOpportunity and select_best_bets -/

/-- The `BetOpportunity` dataclass from scripts/value_finder.py. -/
structure BetOpportunity where
  game : String
  bet_type : String
  bet_side : String
  book_line : ℚ
  book_odds : ℤ
  model_projection : ℚ
  edge_points : ℚ
  edge_pct : ℚ
  model_win_prob : ℚ
  implied_prob : ℚ
  confidence : String
  category : String
  reasoning : String
  bookmaker : String
  kelly_fraction : ℚ
  safety_score : ℚ
  in_preferred_range : Bool

/-- The dict key `(bet.game, bet.bet_type, bet.bet_side)` used by
`select_best_bets`. -/
def betKey (b : BetOpportunity) : String × String × String :=
  (b.game, b.bet_type, b.bet_side)

/-- One iteration of the `best_per_key` dict loop in `select_best_bets`:
`if key not in best_per_key or bet.safety_score > best_per_key[key].safety_score:
best_per_key[key] = bet`.  A CPython dict keeps the insertion position of a key
when its value is replaced, so replacement is in place and new keys append. -/
def dedupStep (acc : List ((String × String × String) × BetOpportunity))
    (bet : BetOpportunity) : List ((String × String × String) × BetOpportunity) :=
  if (acc.find? (fun kv => decide (kv.1 = betKey bet))).isSome then
    acc.map (fun kv =>
      if kv.1 = betKey bet ∧ kv.2.safety_score < bet.safety_score then (kv.1, bet) else kv)
  else
    acc ++ [(betKey bet, bet)]

/-- `deduped = list(best_per_key.values())` in `select_best_bets`. -/
def dedupBets (all_opportunities : List BetOpportunity) : List BetOpportunity :=
  (all_opportunities.foldl dedupStep []).map Prod.snd

/-- One iteration of the `games.setdefault(bet.game, []).append(bet)` loop in
`select_best_bets`. -/
def groupStep (acc : List (String × List BetOpportunity)) (bet : BetOpportunity) :
    List (String × List BetOpportunity) :=
  if (acc.find? (fun kv => decide (kv.1 = bet.game))).isSome then
    acc.map (fun kv => if kv.1 = bet.game then (kv.1, kv.2 ++ [bet]) else kv)
  else
    acc ++ [(bet.game, [bet])]

/-- The `games` dict of `select_best_bets`, as an insertion-ordered
association list. -/
def groupByGame (l : List BetOpportunity) : List (String × List BetOpportunity) :=
  l.foldl groupStep []

/-- `max(b.safety_score for b in bets)`; the groups this is applied to are
always non-empty (Python `max` would raise on an empty group). -/
def maxSafety : List BetOpportunity → ℚ
  | [] => 0
  | b :: bs => bs.foldl (fun m x => max m x.safety_score) b.safety_score

/-- The `game_scores` list of `(best_safety, game_label)` pairs. -/
def gameScores (groups : List (String × List BetOpportunity)) : List (ℚ × String) :=
  groups.map (fun kv => (maxSafety kv.2, kv.1))

/-- `game_scores.sort(reverse=True)`: descending lexicographic order on
`(score, label)` tuples, exactly Python's tuple comparison reversed. -/
def scoreDescLe (a b : ℚ × String) : Bool :=
  decide (b.1 < a.1) || (decide (a.1 = b.1) && !decide (a.2 < b.2))

/-- Python `max(bets, key=f)`: the first element attaining the maximal key. -/
def pyMaxBy (f : BetOpportunity → ℚ) : List BetOpportunity → Option BetOpportunity
  | [] => none
  | b :: bs => some (bs.foldl (fun m x => if f m < f x then x else m) b)

/-- The `value_candidates` list of the per-game loop in `select_best_bets`:
bets whose `(bet_type, bet_side)` differs from the safe pick's. -/
def valueCandidates (safe : BetOpportunity) (bets : List BetOpportunity) :
    List BetOpportunity :=
  bets.filter
    (fun b => !(decide (b.bet_type = safe.bet_type) && decide (b.bet_side = safe.bet_side)))

/-- The body of the per-game loop of `select_best_bets`: the "safe" pick
(highest safety score) and, when a bet with a different `(bet_type, bet_side)`
exists, the "value" pick (highest edge among those). -/
def picksForGame (bets : List BetOpportunity) : List BetOpportunity :=
  match pyMaxBy (fun b => b.safety_score) bets with
  | none => []
  | some safe =>
    match pyMaxBy (fun b => b.edge_pct) (valueCandidates safe bets) with
    | none => [{ safe with category := "safe" }]
    | some v => [{ safe with category := "safe" }, { v with category := "value" }]

/-- `games[game_label]` lookup. -/
def lookupGame (groups : List (String × List BetOpportunity)) (label : String) :
    List BetOpportunity :=
  match groups.find? (fun kv => decide (kv.1 = label)) with
  | some kv => kv.2
  | none => []

/-- The `results` accumulation loop of `select_best_bets` over the selected
game labels. -/
def collectPicks (groups : List (String × List BetOpportunity)) :
    List String → List BetOpportunity
  | [] => []
  | label :: rest => picksForGame (lookupGame groups label) ++ collectPicks groups rest

/-- The game labels selected by `select_best_bets`: sort `game_scores`
descending, take the first `top_n`, keep the labels. -/
def selectedLabels (all_opportunities : List BetOpportunity) (top_n : ℕ) : List String :=
  ((((gameScores (groupByGame (dedupBets all_opportunities))).mergeSort
    scoreDescLe).take top_n).map Prod.snd)

/-- `results.sort(key=lambda b: b.safety_score, reverse=True)`. -/
def safetyDescLe (a b : BetOpportunity) : Bool :=
  decide (b.safety_score ≤ a.safety_score)

/-- `select_best_bets` from scripts/value_finder.py (the source declares
`top_n` with default value 5). -/
def select_best_bets (all_opportunities : List BetOpportunity) (top_n : ℕ) :
    List BetOpportunity :=
  (collectPicks (groupByGame (dedupBets all_opportunities))
    (selectedLabels all_opportunities top_n)).mergeSort safetyDescLe

/-! ## stats_builder.py / matchup_model.py — the statistical core (over ℝ) -/

noncomputable section

/-- League average points per possession, `LEAGUE_AVG_PPP` in
scripts/stats_builder.py. -/
def LEAGUE_AVG_PPP : ℝ := 1.00

/-- Home court advantage in PPP, `HOME_COURT_PPP` in scripts/matchup_model.py. -/
def HOME_COURT_PPP : ℝ := 0.045

/-- The `TeamSeasonProfile` dataclass from scripts/stats_builder.py. -/
structure TeamSeasonProfile where
  team : String
  espn_id : String
  games_played : ℕ
  avg_possessions : ℝ
  tempo_std : ℝ
  off_ppp : ℝ
  def_ppp : ℝ
  eff_margin : ℝ
  off_ppp_std : ℝ
  def_ppp_std : ℝ
  avg_pts_for : ℝ
  avg_pts_against : ℝ
  pts_for_std : ℝ
  pts_against_std : ℝ
  avg_fta : ℝ
  avg_fta_rate : ℝ
  avg_opp_fta : ℝ
  three_rate : ℝ
  three_pct : ℝ
  orb_pct : ℝ
  sos_off_ppp : ℝ
  sos_def_ppp : ℝ
  sos_eff_margin : ℝ
  recent_off_ppp : ℝ
  recent_def_ppp : ℝ
  recent_avg_pts : ℝ

/-- The `MatchupProjection` dataclass from scripts/matchup_model.py. -/
structure MatchupProjection where
  home_team : String
  away_team : String
  proj_tempo : ℝ
  home_ppp : ℝ
  away_ppp : ℝ
  home_pts : ℝ
  away_pts : ℝ
  proj_total : ℝ
  proj_spread : ℝ
  home_fta : ℝ
  away_fta : ℝ
  total_std : ℝ
  spread_std : ℝ
  home_pts_std : ℝ
  away_pts_std : ℝ
  home_win_prob : ℝ
  home_pts_ci_lo : ℝ
  home_pts_ci_hi : ℝ
  away_pts_ci_lo : ℝ
  away_pts_ci_hi : ℝ
  total_ci_lo : ℝ
  total_ci_hi : ℝ
  spread_ci_lo : ℝ
  spread_ci_hi : ℝ

/-- `logistic_win_prob` from scripts/matchup_model.py.  The `spread_std`
argument is unused by the source as well ("kept for API consistency"). -/
def logistic_win_prob (spread : ℝ) (spread_std : ℝ) : ℝ :=
  1 / (1 + Real.exp (0.175 * spread))

/-- The 90%-interval normal quantile used by `compute_confidence_intervals`.
Modelled from the spec: the source obtains `z = scipy.stats.norm.ppf(0.95)`
from an external library; spec and source comment fix this 95th-percentile
standard-normal quantile at ≈ 1.645. -/
def z90 : ℝ := 1.645

/-- `compute_confidence_intervals` from scripts/matchup_model.py at its default
confidence of 0.90 (the only confidence level the repository uses):
`(value - z*std, value + z*std)`. -/
def compute_confidence_intervals (value : ℝ) (std : ℝ) : ℝ × ℝ :=
  (value - z90 * std, value + z90 * std)

/-- `compute_adjusted_efficiency` from scripts/matchup_model.py:
SOS-adjusted `(adj_off_ppp, adj_def_ppp)`. -/
def compute_adjusted_efficiency (profile : TeamSeasonProfile) (league_avg : ℝ) : ℝ × ℝ :=
  (if profile.sos_def_ppp > 0 then profile.off_ppp + (league_avg - profile.sos_def_ppp)
   else profile.off_ppp,
   if profile.sos_off_ppp > 0 then profile.def_ppp + (league_avg - profile.sos_off_ppp)
   else profile.def_ppp)

/-- `project_tempo` from scripts/matchup_model.py: harmonic mean of the two
tempos, with `max(t1, t2, 65.0)` as the degenerate fallback. -/
def project_tempo (home : TeamSeasonProfile) (away : TeamSeasonProfile) : ℝ :=
  if home.avg_possessions ≤ 0 ∨ away.avg_possessions ≤ 0 then
    max (max home.avg_possessions away.avg_possessions) 65
  else
    2 * home.avg_possessions * away.avg_possessions /
      (home.avg_possessions + away.avg_possessions)

/-- `project_ppp` from scripts/matchup_model.py, with the module constant
`HOME_COURT_PPP` abstracted as the argument `hc` (the source reads it from the
module scope; `project_ppp` below instantiates it). -/
def project_ppp_hc (hc : ℝ) (off_profile def_profile : TeamSeasonProfile)
    (is_home : Bool) (league_avg : ℝ) : ℝ :=
  let adj_off := (compute_adjusted_efficiency off_profile league_avg).1
  let adj_def := (compute_adjusted_efficiency def_profile league_avg).2
  let matchup_ppp := adj_off + adj_def - league_avg
  let recent_ppp :=
    if off_profile.recent_off_ppp > 0 then off_profile.recent_off_ppp else adj_off
  let blended := 0.85 * matchup_ppp + 0.15 * recent_ppp
  if is_home then blended + hc else blended

/-- `project_ppp` as the source runs it: home-court bonus `HOME_COURT_PPP`,
league average at its default `LEAGUE_AVG_PPP`. -/
def project_ppp (off_profile def_profile : TeamSeasonProfile) (is_home : Bool) : ℝ :=
  project_ppp_hc HOME_COURT_PPP off_profile def_profile is_home LEAGUE_AVG_PPP

/-- `project_fta` from scripts/matchup_model.py at its default
`league_avg_fta = 18.0`. -/
def project_fta (off_profile def_profile : TeamSeasonProfile) : ℝ :=
  0.4 * off_profile.avg_fta + 0.4 * def_profile.avg_opp_fta + 0.2 * 18

/-- `estimate_uncertainty` from scripts/matchup_model.py:
`(total_std, spread_std, home_pts_std, away_pts_std)`. -/
def estimate_uncertainty (home : TeamSeasonProfile) (away : TeamSeasonProfile) :
    ℝ × ℝ × ℝ × ℝ :=
  let home_penalty := Real.sqrt (30 / max (home.games_played : ℝ) 1)
  let away_penalty := Real.sqrt (30 / max (away.games_played : ℝ) 1)
  let home_pts_std := max (home.pts_for_std * home_penalty) 6
  let away_pts_std := max (away.pts_for_std * away_penalty) 6
  (max (Real.sqrt (home_pts_std ^ 2 + away_pts_std ^ 2)) 10,
   max (Real.sqrt (home_pts_std ^ 2 + away_pts_std ^ 2)) 10,
   home_pts_std,
   away_pts_std)

/-- `project_matchup` from scripts/matchup_model.py with the module constant
`HOME_COURT_PPP` abstracted as `hc` (see `project_ppp_hc`). -/
def project_matchup_hc (hc : ℝ) (home : TeamSeasonProfile) (away : TeamSeasonProfile) :
    MatchupProjection :=
  let tempo := project_tempo home away
  let home_ppp := project_ppp_hc hc home away true LEAGUE_AVG_PPP
  let away_ppp := project_ppp_hc hc away home false LEAGUE_AVG_PPP
  let home_pts := tempo * home_ppp
  let away_pts := tempo * away_ppp
  let proj_total := home_pts + away_pts
  let proj_spread := away_pts - home_pts
  let u := estimate_uncertainty home away
  let home_win_prob := logistic_win_prob proj_spread u.2.1
  { home_team := home.team
    away_team := away.team
    proj_tempo := tempo
    home_ppp := home_ppp
    away_ppp := away_ppp
    home_pts := home_pts
    away_pts := away_pts
    proj_total := proj_total
    proj_spread := proj_spread
    home_fta := project_fta home away
    away_fta := project_fta away home
    total_std := u.1
    spread_std := u.2.1
    home_pts_std := u.2.2.1
    away_pts_std := u.2.2.2
    home_win_prob := home_win_prob
    home_pts_ci_lo := (compute_confidence_intervals home_pts u.2.2.1).1
    home_pts_ci_hi := (compute_confidence_intervals home_pts u.2.2.1).2
    away_pts_ci_lo := (compute_confidence_intervals away_pts u.2.2.2).1
    away_pts_ci_hi := (compute_confidence_intervals away_pts u.2.2.2).2
    total_ci_lo := (compute_confidence_intervals proj_total u.1).1
    total_ci_hi := (compute_confidence_intervals proj_total u.1).2
    spread_ci_lo := (compute_confidence_intervals proj_spread u.2.1).1
    spread_ci_hi := (compute_confidence_intervals proj_spread u.2.1).2 }

/-- `project_matchup` as the source runs it, with the home-court bonus at the
module constant `HOME_COURT_PPP`. -/
def project_matchup (home : TeamSeasonProfile) (away : TeamSeasonProfile) :
    MatchupProjection :=
  project_matchup_hc HOME_COURT_PPP home away

/-! ## stats_builder.py — build_team_profile -/

/-- One row of the canonical season game-log table consumed by
`build_team_profile` in scripts/stats_builder.py (one team's side of one game;
`poss`, `off_ppp`, `def_ppp` are the columns precomputed by
`fetch_team_season_data`).  Dates are calendar dates, totally ordered; they are
modelled as integers. -/
structure GameRow where
  date : ℤ
  team : String
  opponent : String
  pts_for : ℝ
  pts_against : ℝ
  fga : ℝ
  fta : ℝ
  orb : ℝ
  tov : ℝ
  three_pm : ℝ
  three_pa : ℝ
  poss : ℝ
  off_ppp : ℝ
  def_ppp : ℝ

/-- pandas `Series.mean()` over a column. -/
def listMean (l : List ℝ) : ℝ := l.sum / l.length

/-- pandas `Series.std()` (sample standard deviation, ddof = 1); the source
only evaluates it when the list has length > 1. -/
def sampleStd (l : List ℝ) : ℝ :=
  Real.sqrt ((l.map (fun x => (x - listMean l) ^ 2)).sum / ((l.length : ℝ) - 1))

/-- pandas `Series.unique()`: distinct values in first-occurrence order. -/
def pdUnique (l : List String) : List String :=
  l.foldl (fun acc s => if s ∈ acc then acc else acc ++ [s]) []

/-- The column std-dev guard `... .std() if n > 1 else 0.0` used throughout
`build_team_profile`. -/
def guardedStd (l : List ℝ) : ℝ :=
  if 1 < l.length then sampleStd l else 0

/-- The opponent-FTA collection loop of `build_team_profile`: for each of the
team's rows, the `fta` of the first row of `df` whose team is that row's
opponent on the same date. -/
def oppFtaValues (df : List GameRow) (team_df : List GameRow) : List ℝ :=
  team_df.filterMap (fun row =>
    (df.find? (fun r =>
      decide (r.team = row.opponent) && decide (r.date = row.date))).map
        (fun opp_row => opp_row.fta))

/-- `avg_opp_fta` in `build_team_profile`: mean of the collected opponent FTA
values, falling back to the team's own average FTA when none were found. -/
def avgOppFta (df : List GameRow) (team_df : List GameRow) : ℝ :=
  if (oppFtaValues df team_df).isEmpty then listMean (team_df.map (fun r => r.fta))
  else listMean (oppFtaValues df team_df)

/-- `avg_fta_rate` in `build_team_profile`: mean FTA/FGA, but 0 unless every
game has positive FGA. -/
def avgFtaRate (team_df : List GameRow) : ℝ :=
  if team_df.all (fun r => decide (0 < r.fga)) then
    listMean (team_df.map (fun r => r.fta / r.fga))
  else 0

/-- `three_rate` in `build_team_profile` (the canonical schema always has the
`three_pa` column). -/
def threeRate (team_df : List GameRow) : ℝ :=
  if team_df.all (fun r => decide (0 < r.fga)) then
    listMean (team_df.map (fun r => r.three_pa / r.fga))
  else 0

/-- `three_pct` in `build_team_profile`: mean make rate over games with at
least one three-point attempt. -/
def threePct (team_df : List GameRow) : ℝ :=
  let valid := team_df.filter (fun r => decide (0 < r.three_pa))
  if valid.isEmpty then 0
  else listMean (valid.map (fun r => r.three_pm / r.three_pa))

/-- `orb_pct` in `build_team_profile`: mean ORB over misses (`fga - three_pm`)
for games with positive misses. -/
def orbPct (team_df : List GameRow) : ℝ :=
  let valid := team_df.filter (fun r => decide (0 < r.fga - r.three_pm))
  if valid.isEmpty then 0
  else listMean (valid.map (fun r => r.orb / (r.fga - r.three_pm)))

/-- `team_df.sort_values("date").tail(5)` in `build_team_profile`. -/
def recentRows (team_df : List GameRow) : List GameRow :=
  let sorted := team_df.mergeSort (fun a b => decide (a.date ≤ b.date))
  sorted.drop (sorted.length - 5)

/-- The SOS pass of `build_team_profile`:
`(sos_off_ppp, sos_def_ppp, sos_eff_margin)` averaged over the distinct faced
opponents present in the supplied profile map; all zero when the map is absent,
empty, or matches no opponent. -/
def sosTriple (opponent_profiles : Option (List (String × TeamSeasonProfile)))
    (team_df : List GameRow) : ℝ × ℝ × ℝ :=
  match opponent_profiles with
  | none => (0, 0, 0)
  | some ps =>
    if ps.isEmpty then (0, 0, 0)
    else
      let opps := pdUnique (team_df.map (fun r => r.opponent))
      let found := opps.filterMap (fun name =>
        (ps.find? (fun kv => decide (kv.1 = name))).map Prod.snd)
      if found.isEmpty then (0, 0, 0)
      else
        (listMean (found.map (fun p => p.off_ppp)),
         listMean (found.map (fun p => p.def_ppp)),
         listMean (found.map (fun p => p.off_ppp)) -
           listMean (found.map (fun p => p.def_ppp)))

/-- The profile record built by the non-raising branch of
`build_team_profile`, field by field as in scripts/stats_builder.py. -/
def profileFromRows (df : List GameRow) (team_name : String) (espn_id : String)
    (opponent_profiles : Option (List (String × TeamSeasonProfile)))
    (team_df : List GameRow) : TeamSeasonProfile :=
  { team := team_name
    espn_id := espn_id
    games_played := team_df.length
    avg_possessions := listMean (team_df.map (fun r => r.poss))
    tempo_std := guardedStd (team_df.map (fun r => r.poss))
    off_ppp := listMean (team_df.map (fun r => r.off_ppp))
    def_ppp := listMean (team_df.map (fun r => r.def_ppp))
    eff_margin :=
      listMean (team_df.map (fun r => r.off_ppp)) -
        listMean (team_df.map (fun r => r.def_ppp))
    off_ppp_std := guardedStd (team_df.map (fun r => r.off_ppp))
    def_ppp_std := guardedStd (team_df.map (fun r => r.def_ppp))
    avg_pts_for := listMean (team_df.map (fun r => r.pts_for))
    avg_pts_against := listMean (team_df.map (fun r => r.pts_against))
    pts_for_std := guardedStd (team_df.map (fun r => r.pts_for))
    pts_against_std := guardedStd (team_df.map (fun r => r.pts_against))
    avg_fta := listMean (team_df.map (fun r => r.fta))
    avg_fta_rate := avgFtaRate team_df
    avg_opp_fta := avgOppFta df team_df
    three_rate := threeRate team_df
    three_pct := threePct team_df
    orb_pct := orbPct team_df
    sos_off_ppp := (sosTriple opponent_profiles team_df).1
    sos_def_ppp := (sosTriple opponent_profiles team_df).2.1
    sos_eff_margin := (sosTriple opponent_profiles team_df).2.2
    recent_off_ppp := listMean ((recentRows team_df).map (fun r => r.off_ppp))
    recent_def_ppp := listMean ((recentRows team_df).map (fun r => r.def_ppp))
    recent_avg_pts := listMean ((recentRows team_df).map (fun r => r.pts_for)) }

/-- `build_team_profile` from scripts/stats_builder.py.  `raise ValueError` is
modelled as `Except.error`; the optional `opponent_profiles` dict is an
optional association list (Python's `if opponent_profiles:` treats both `None`
and an empty dict as absent). -/
def build_team_profile (df : List GameRow) (team_name : String) (espn_id : String)
    (opponent_profiles : Option (List (String × TeamSeasonProfile))) :
    Except String TeamSeasonProfile :=
  let team_df := df.filter (fun r => decide (r.team = team_name))
  if team_df.isEmpty then
    Except.error ("No games found for " ++ team_name)
  else
    Except.ok (profileFromRows df team_name espn_id opponent_profiles team_df)

/-- A concrete team profile, used to evaluate theorems at concrete inputs. -/
def sampleHome : TeamSeasonProfile :=
  { team := "Duke", espn_id := "150", games_played := 20
    avg_possessions := 70, tempo_std := 3
    off_ppp := 1.1, def_ppp := 0.95, eff_margin := 0.15
    off_ppp_std := 0.1, def_ppp_std := 0.1
    avg_pts_for := 77, avg_pts_against := 66, pts_for_std := 8, pts_against_std := 7
    avg_fta := 20, avg_fta_rate := 0.35, avg_opp_fta := 18
    three_rate := 0.4, three_pct := 0.35, orb_pct := 0.3
    sos_off_ppp := 1.02, sos_def_ppp := 0.98, sos_eff_margin := 0.04
    recent_off_ppp := 1.08, recent_def_ppp := 0.97, recent_avg_pts := 75 }

/-- A second concrete team profile. -/
def sampleAway : TeamSeasonProfile :=
  { sampleHome with team := "Kansas", espn_id := "2305", avg_possessions := 68 }

/-- A concrete game-log row, used to evaluate theorems at concrete inputs. -/
def sampleRow : GameRow :=
  { date := 20241105, team := "Duke", opponent := "Kansas"
    pts_for := 75, pts_against := 70, fga := 60, fta := 20, orb := 10, tov := 12
    three_pm := 8, three_pa := 22, poss := 71.5
    off_ppp := 75 / 71.5, def_ppp := 70 / 71.5 }

end

/-! ## Theorems -/

/-- The denominator of the logistic is positive. -/
theorem one_add_exp_pos (x : ℝ) : 0 < 1 + Real.exp x := by positivity

/-- The logistic win probability at spread 0 is exactly one half. -/
theorem logistic_win_prob_zero (s : ℝ) : logistic_win_prob 0 s = 1 / 2 := by
  unfold logistic_win_prob
  norm_num [Real.exp_zero]

/-- C1: for every pair of team profiles, the `MatchupProjection` returned by
`project_matchup` satisfies `proj_total = home_pts + away_pts` and
`proj_spread = away_pts - home_pts` exactly (negative spread meaning home is
favored). -/
theorem projection_total_spread_identity (home away : TeamSeasonProfile) :
    (project_matchup home away).proj_total =
        (project_matchup home away).home_pts + (project_matchup home away).away_pts ∧
      (project_matchup home away).proj_spread =
        (project_matchup home away).away_pts - (project_matchup home away).home_pts :=
  ⟨rfl, rfl⟩

/-- C2: the home win probability from `logistic_win_prob` always lies in
[0, 1], is strictly decreasing as the projected spread increases, and equals
exactly 0.5 when the projected spread is 0. -/
theorem logistic_win_prob_props :
    (∀ s σ : ℝ, 0 ≤ logistic_win_prob s σ ∧ logistic_win_prob s σ ≤ 1) ∧
      (∀ s₁ s₂ σ : ℝ, s₁ < s₂ → logistic_win_prob s₂ σ < logistic_win_prob s₁ σ) ∧
      (∀ σ : ℝ, logistic_win_prob 0 σ = 1 / 2) := by
  refine ⟨fun s σ => ⟨?_, ?_⟩, fun s₁ s₂ σ h => ?_, logistic_win_prob_zero⟩
  · unfold logistic_win_prob
    positivity
  · unfold logistic_win_prob
    rw [div_le_one (one_add_exp_pos _)]
    linarith [Real.exp_pos (0.175 * s)]
  · unfold logistic_win_prob
    have hm : (0.175 : ℝ) * s₁ < 0.175 * s₂ := by nlinarith
    have he := Real.exp_lt_exp.mpr hm
    exact one_div_lt_one_div_of_lt (one_add_exp_pos _) (by linarith)

/-- Witness for C2: at concrete spreads 0 < 1 the win probability strictly
drops. -/
theorem logistic_win_prob_props_witness :
    logistic_win_prob 1 10 < logistic_win_prob 0 10 :=
  logistic_win_prob_props.2.1 0 1 10 (by norm_num)

/-- Counterexample to C7 as stated: at value 0 and std-dev input −1 the
interval does not contain the value (`hi = -1.645 < 0`). -/
theorem ci_claim_counterexample :
    ¬((compute_confidence_intervals 0 (-1)).1 ≤ 0 ∧
      (0 : ℝ) ≤ (compute_confidence_intervals 0 (-1)).2) := by
  unfold compute_confidence_intervals z90
  norm_num

/-- C7 (amended to non-negative std-dev inputs): the 90% interval satisfies
`lo ≤ value ≤ hi` and `hi - lo = 2·1.645·std`. -/
theorem compute_confidence_intervals_bounds (value std : ℝ) (h : 0 ≤ std) :
    (compute_confidence_intervals value std).1 ≤ value ∧
      value ≤ (compute_confidence_intervals value std).2 ∧
      (compute_confidence_intervals value std).2 -
          (compute_confidence_intervals value std).1 = 2 * 1.645 * std := by
  unfold compute_confidence_intervals z90
  refine ⟨by nlinarith, by nlinarith, by ring⟩

/-- Witness for C7: the interval around 100 with std 8. -/
theorem compute_confidence_intervals_bounds_witness :
    (compute_confidence_intervals 100 8).1 ≤ 100 ∧
      (100 : ℝ) ≤ (compute_confidence_intervals 100 8).2 ∧
      (compute_confidence_intervals 100 8).2 -
          (compute_confidence_intervals 100 8).1 = 2 * 1.645 * 8 :=
  compute_confidence_intervals_bounds 100 8 (by norm_num)

/-- C8: projecting a profile against itself with the home-court PPP bonus set
to zero yields `proj_spread = 0` and `home_win_prob = 0.5`; with the bonus at
its default the home side gains exactly `HOME_COURT_PPP = 0.045` PPP. -/
theorem self_matchup_symmetric (P : TeamSeasonProfile) :
    (project_matchup_hc 0 P P).proj_spread = 0 ∧
      (project_matchup_hc 0 P P).home_win_prob = 1 / 2 ∧
      (project_matchup P P).home_ppp - (project_matchup P P).away_ppp = HOME_COURT_PPP := by
  have hs : (project_matchup_hc 0 P P).proj_spread = 0 := by
    show project_tempo P P * project_ppp_hc 0 P P false LEAGUE_AVG_PPP -
        project_tempo P P * project_ppp_hc 0 P P true LEAGUE_AVG_PPP = 0
    unfold project_ppp_hc
    simp
  refine ⟨hs, ?_, ?_⟩
  · have hw : (project_matchup_hc 0 P P).home_win_prob =
        logistic_win_prob ((project_matchup_hc 0 P P).proj_spread)
          ((project_matchup_hc 0 P P).spread_std) := rfl
    rw [hw, hs, logistic_win_prob_zero]
  · show project_ppp_hc HOME_COURT_PPP P P true LEAGUE_AVG_PPP -
        project_ppp_hc HOME_COURT_PPP P P false LEAGUE_AVG_PPP = HOME_COURT_PPP
    unfold project_ppp_hc
    simp

/-- C9: `project_tempo` returns the harmonic mean when both tempos are
positive and `max(t1, t2, 65.0)` when either is non-positive (and, being a
total function, never raises). -/
theorem project_tempo_spec (home away : TeamSeasonProfile) :
    (home.avg_possessions ≤ 0 ∨ away.avg_possessions ≤ 0 →
      project_tempo home away = max (max home.avg_possessions away.avg_possessions) 65) ∧
      (0 < home.avg_possessions → 0 < away.avg_possessions →
        project_tempo home away =
          2 * home.avg_possessions * away.avg_possessions /
            (home.avg_possessions + away.avg_possessions)) := by
  constructor
  · intro h
    unfold project_tempo
    rw [if_pos h]
  · intro h1 h2
    unfold project_tempo
    rw [if_neg (by push_neg; exact ⟨h1, h2⟩)]

/-- Witness for C9: harmonic mean of the sample tempos 70 and 68. -/
theorem project_tempo_spec_witness :
    project_tempo sampleHome sampleAway = 2 * 70 * 68 / (70 + 68) := by
  have h := (project_tempo_spec sampleHome sampleAway).2
    (by norm_num [sampleHome]) (by norm_num [sampleAway, sampleHome])
  simpa [sampleHome, sampleAway] using h

/-- C10: the projection's `total_std` and `spread_std` are always equal — both
components of `estimate_uncertainty` are computed by the same formula. -/
theorem total_std_eq_spread_std (home away : TeamSeasonProfile) :
    (project_matchup home away).total_std = (project_matchup home away).spread_std ∧
      (estimate_uncertainty home away).1 = (estimate_uncertainty home away).2.1 :=
  ⟨rfl, rfl⟩

/-- C4: the Kelly fraction is always clamped into [0, 0.05], and is 0 without
any division when the net payout `b` is non-positive (odds = 0). -/
theorem compute_kelly_fraction_range (odds : ℤ) (p : ℚ) (h0 : 0 ≤ p) (h1 : p ≤ 1) :
    0 ≤ compute_kelly_fraction p odds ∧ compute_kelly_fraction p odds ≤ 5 / 100 ∧
      (odds = 0 → compute_kelly_fraction p odds = 0) := by
  unfold compute_kelly_fraction compute_kelly_fraction_capped
  refine ⟨?_, ?_, ?_⟩
  · split
    · exact le_refl 0
    · exact le_max_left 0 _
  · split
    · norm_num
    · exact max_le (by norm_num) (min_le_right _ _)
  · intro h
    subst h
    rw [if_pos (by norm_num [kelly_b])]

/-- Witness for C4: a −110 favorite at model probability 3/4. -/
theorem compute_kelly_fraction_range_witness :
    0 ≤ compute_kelly_fraction (3 / 4) (-110) ∧
      compute_kelly_fraction (3 / 4) (-110) ≤ 5 / 100 ∧
      ((-110 : ℤ) = 0 → compute_kelly_fraction (3 / 4) (-110) = 0) :=
  compute_kelly_fraction_range (-110) (3 / 4) (by norm_num) (by norm_num)

/-- C5: `american_to_implied_prob` maps negative odds `o` to `|o|/(|o|+100)`,
positive odds to `100/(o+100)`, sends −110 to ≈0.5238 and 150 to ≈0.4000, and
always lands in (0, 1]. -/
theorem american_to_implied_prob_spec :
    (∀ o : ℤ, o < 0 → american_to_implied_prob o = (|o| : ℚ) / ((|o| : ℚ) + 100)) ∧
      (∀ o : ℤ, 0 < o → american_to_implied_prob o = 100 / ((o : ℚ) + 100)) ∧
      american_to_implied_prob (-110) = 11 / 21 ∧
      american_to_implied_prob 150 = 2 / 5 ∧
      |american_to_implied_prob (-110) - 0.5238| < 0.0001 ∧
      |american_to_implied_prob 150 - 0.4| < 0.0001 ∧
      (∀ o : ℤ, 0 < american_to_implied_prob o ∧ american_to_implied_prob o ≤ 1) := by
  have hval : american_to_implied_prob (-110) = 11 / 21 := by
    norm_num [american_to_implied_prob]
  have hval2 : american_to_implied_prob 150 = 2 / 5 := by
    norm_num [american_to_implied_prob]
  refine ⟨fun o ho => ?_, fun o ho => ?_, hval, hval2, ?_, ?_, fun o => ?_⟩
  · unfold american_to_implied_prob
    rw [if_pos ho]
  · unfold american_to_implied_prob
    rw [if_neg (by omega)]
  · rw [hval, abs_sub_lt_iff]; norm_num
  · rw [hval2, abs_sub_lt_iff]; norm_num
  · unfold american_to_implied_prob
    split
    · rename_i ho
      have habs : (0 : ℚ) < (|o| : ℚ) := by
        have : (0 : ℤ) < |o| := abs_pos.mpr (by omega)
        exact_mod_cast this
      constructor
      · exact div_pos habs (by linarith)
      · rw [div_le_one (by linarith)]
        linarith
    · rename_i ho
      push_neg at ho
      have hcast : (0 : ℚ) ≤ (o : ℚ) := by exact_mod_cast ho
      constructor
      · exact div_pos (by norm_num) (by linarith)
      · rw [div_le_one (by linarith)]
        linarith

/-- Witness for C5: both branch equations evaluated at concrete odds. -/
theorem american_to_implied_prob_spec_witness :
    american_to_implied_prob (-110) =
        (|(-110 : ℤ)| : ℚ) / ((|(-110 : ℤ)| : ℚ) + 100) ∧
      american_to_implied_prob 150 = 100 / (((150 : ℤ) : ℚ) + 100) :=
  ⟨american_to_implied_prob_spec.1 (-110) (by norm_num),
   american_to_implied_prob_spec.2.1 150 (by norm_num)⟩

/-- C6: `build_team_profile` fails with the missing-data error exactly when no
row of the game log matches the requested team name, and otherwise returns the
constructed profile without raising. -/
theorem build_team_profile_error_iff (df : List GameRow) (team_name espn_id : String)
    (ops : Option (List (String × TeamSeasonProfile))) :
    (build_team_profile df team_name espn_id ops =
        Except.error ("No games found for " ++ team_name) ↔
      df.filter (fun r => decide (r.team = team_name)) = []) ∧
    (df.filter (fun r => decide (r.team = team_name)) ≠ [] →
      build_team_profile df team_name espn_id ops =
        Except.ok (profileFromRows df team_name espn_id ops
          (df.filter (fun r => decide (r.team = team_name))))) := by
  simp only [build_team_profile]
  by_cases h : (df.filter (fun r => decide (r.team = team_name))).isEmpty
  · rw [if_pos h]
    rw [List.isEmpty_iff] at h
    simp [h]
  · rw [if_neg h]
    have h' : df.filter (fun r => decide (r.team = team_name)) ≠ [] := by
      simpa [List.isEmpty_iff] using h
    simp [h']

/-! ### Lemmas for the `select_best_bets` properties (C3) -/

/-- A property preserved by each fold step is preserved by the whole fold. -/
theorem foldl_preserve {α β : Type} (P : α → Prop) (step : α → β → α)
    (hstep : ∀ acc b, P acc → P (step acc b)) :
    ∀ (l : List β) (acc : α), P acc → P (l.foldl step acc) := by
  intro l
  induction l with
  | nil => intro acc h; exact h
  | cons b bs ih => intro acc h; exact ih (step acc b) (hstep acc b h)

/-- Every bet stored under a game key of the `games` dict carries that game
label. -/
theorem groupByGame_mem_game (l : List BetOpportunity) :
    ∀ kv ∈ groupByGame l, ∀ b ∈ kv.2, b.game = kv.1 := by
  unfold groupByGame
  refine foldl_preserve
    (fun acc : List (String × List BetOpportunity) =>
      ∀ kv ∈ acc, ∀ b ∈ kv.2, b.game = kv.1)
    groupStep ?_ l [] (by simp)
  intro acc bet hinv
  unfold groupStep
  split
  · intro kv hkv b hb
    rw [List.mem_map] at hkv
    obtain ⟨kv₀, hkv₀, rfl⟩ := hkv
    by_cases hcase : kv₀.1 = bet.game
    · rw [if_pos hcase] at hb ⊢
      rcases List.mem_append.mp hb with hold | hnew
      · exact hinv kv₀ hkv₀ b hold
      · rw [List.mem_singleton] at hnew
        subst hnew
        exact hcase.symm
    · rw [if_neg hcase] at hb ⊢
      exact hinv kv₀ hkv₀ b hb
  · intro kv hkv b hb
    rcases List.mem_append.mp hkv with hold | hnew
    · exact hinv kv hold b hb
    · rw [List.mem_singleton] at hnew
      subst hnew
      rw [List.mem_singleton] at hb
      subst hb
      rfl

/-- The `games` dict has pairwise-distinct keys. -/
theorem groupByGame_keys_nodup (l : List BetOpportunity) :
    ((groupByGame l).map Prod.fst).Nodup := by
  unfold groupByGame
  refine foldl_preserve
    (fun acc : List (String × List BetOpportunity) => (acc.map Prod.fst).Nodup)
    groupStep ?_ l [] (by simp)
  intro acc bet hinv
  unfold groupStep
  split
  · rename_i hfind
    have hkeys : ((acc.map (fun kv =>
        if kv.1 = bet.game then (kv.1, kv.2 ++ [bet]) else kv)).map Prod.fst) =
        acc.map Prod.fst := by
      rw [List.map_map]
      refine List.map_congr_left ?_
      intro kv _
      by_cases hcase : kv.1 = bet.game
      · simp [hcase]
      · simp [hcase]
    rw [hkeys]
    exact hinv
  · rename_i hfind
    have hnone : acc.find? (fun kv => decide (kv.1 = bet.game)) = none :=
      Option.not_isSome_iff_eq_none.mp hfind
    have hnotmem : ∀ kv ∈ acc, kv.1 ≠ bet.game := by
      intro kv hkv
      have := List.find?_eq_none.mp hnone kv hkv
      simpa using this
    rw [List.map_append]
    rw [List.nodup_append]
    refine ⟨hinv, by simp, ?_⟩
    intro x hx
    rw [List.mem_map] at hx
    obtain ⟨kv, hkv, rfl⟩ := hx
    simpa using fun h => hnotmem kv hkv h

/-- The inner fold of `pyMaxBy` returns either the seed or a list element. -/
theorem pyMaxBy_foldl_mem (f : BetOpportunity → ℚ) :
    ∀ (l : List BetOpportunity) (m : BetOpportunity),
      l.foldl (fun m x => if f m < f x then x else m) m ∈ m :: l := by
  intro l
  induction l with
  | nil => intro m; simp
  | cons b bs ih =>
    intro m
    have h := ih (if f m < f b then b else m)
    rcases List.mem_cons.mp h with hseed | htail
    · rw [List.foldl_cons, hseed]
      by_cases hc : f m < f b
      · rw [if_pos hc]; simp
      · rw [if_neg hc]; simp
    · rw [List.foldl_cons]
      right
      right
      exact htail

/-- Python `max(bets, key=f)` returns an element of the list. -/
theorem pyMaxBy_mem {f : BetOpportunity → ℚ} {l : List BetOpportunity}
    {b : BetOpportunity} (h : pyMaxBy f l = some b) : b ∈ l := by
  match l, h with
  | x :: xs, h =>
    have hmem := pyMaxBy_foldl_mem f xs x
    have hb : xs.foldl (fun m y => if f m < f y then y else m) x = b := by
      simpa [pyMaxBy] using h
    rw [hb] at hmem
    rcases List.mem_cons.mp hmem with h1 | h2
    · rw [h1]; simp
    · exact List.mem_cons_of_mem x h2

/-- Every bet returned by `games[label]` carries that game label. -/
theorem lookupGame_game {groups : List (String × List BetOpportunity)}
    (hg : ∀ kv ∈ groups, ∀ b ∈ kv.2, b.game = kv.1) (label : String) :
    ∀ b ∈ lookupGame groups label, b.game = label := by
  unfold lookupGame
  split
  · rename_i kv hkv
    intro b hb
    have h1 : kv.1 = label := by simpa using List.find?_some hkv
    have h2 : kv ∈ groups := List.mem_of_find?_eq_some hkv
    rw [← h1]
    exact hg kv h2 b hb
  · simp

/-- Per selected game at most two picks (the "safe" and the "value" pick) are
emitted. -/
theorem picksForGame_length (bets : List BetOpportunity) :
    (picksForGame bets).length ≤ 2 := by
  unfold picksForGame
  split
  · simp
  · split <;> simp

/-- Every emitted pick for a game comes from that game's bets, so it carries
the game's label. -/
theorem picksForGame_game {bets : List BetOpportunity} {g : String}
    (hb : ∀ b ∈ bets, b.game = g) : ∀ b ∈ picksForGame bets, b.game = g := by
  unfold picksForGame
  split
  · simp
  · rename_i safe hsafe
    have hsafe_mem : safe ∈ bets := pyMaxBy_mem hsafe
    split
    · rename_i hv
      intro b hbmem
      rw [List.mem_singleton] at hbmem
      subst hbmem
      exact hb safe hsafe_mem
    · rename_i v hv
      intro b hbmem
      rcases List.mem_cons.mp hbmem with h1 | h2
      · subst h1
        exact hb safe hsafe_mem
      · rw [List.mem_singleton] at h2
        subst h2
        have hv_mem : v ∈ bets := by
          have hvc := pyMaxBy_mem hv
          unfold valueCandidates at hvc
          exact List.mem_of_mem_filter hvc
        exact hb v hv_mem

/-- The safe and value picks of one game never share a
(game, bet_type, bet_side) key: the value pick is drawn from the bets whose
(type, side) differs from the safe pick's. -/
theorem picksForGame_pairwise (bets : List BetOpportunity) :
    (picksForGame bets).Pairwise (fun a b => betKey a ≠ betKey b) := by
  unfold picksForGame
  split
  · simp
  · rename_i safe hsafe
    split
    · simp
    · rename_i v hv
      have hv_filter := pyMaxBy_mem hv
      unfold valueCandidates at hv_filter
      have hpred := (List.mem_filter.mp hv_filter).2
      have hne : ¬v.bet_type = safe.bet_type ∨ ¬v.bet_side = safe.bet_side := by
        simpa using hpred
      refine List.Pairwise.cons ?_ (by simp)
      intro y hy
      rw [List.mem_singleton] at hy
      subst hy
      intro hk
      have hk' : (safe.game, safe.bet_type, safe.bet_side) =
          (v.game, v.bet_type, v.bet_side) := hk
      rw [Prod.mk.injEq, Prod.mk.injEq] at hk'
      rcases hne with h | h
      · exact h hk'.2.1.symm
      · exact h hk'.2.2.symm

/-- Every pick collected over a label list carries one of the labels. -/
theorem collectPicks_game_mem {groups : List (String × List BetOpportunity)}
    (hg : ∀ kv ∈ groups, ∀ b ∈ kv.2, b.game = kv.1) :
    ∀ (labels : List String) (b : BetOpportunity),
      b ∈ collectPicks groups labels → b.game ∈ labels := by
  intro labels
  induction labels with
  | nil => intro b hb; simp [collectPicks] at hb
  | cons label rest ih =>
    intro b hb
    rw [collectPicks, List.mem_append] at hb
    rcases hb with h1 | h2
    · have := picksForGame_game (lookupGame_game hg label) b h1
      rw [this]
      exact List.mem_cons_self _ _
    · exact List.mem_cons_of_mem _ (ih b h2)

/-- Picks collected over pairwise-distinct labels have pairwise-distinct
(game, bet_type, bet_side) keys. -/
theorem collectPicks_pairwise {groups : List (String × List BetOpportunity)}
    (hg : ∀ kv ∈ groups, ∀ b ∈ kv.2, b.game = kv.1) :
    ∀ labels : List String, labels.Nodup →
      (collectPicks groups labels).Pairwise (fun a b => betKey a ≠ betKey b) := by
  intro labels
  induction labels with
  | nil => intro _; simp [collectPicks]
  | cons label rest ih =>
    intro hnodup
    rw [List.nodup_cons] at hnodup
    rw [collectPicks, List.pairwise_append]
    refine ⟨picksForGame_pairwise _, ih hnodup.2, ?_⟩
    intro x hx y hy
    have hxg : x.game = label := picksForGame_game (lookupGame_game hg label) x hx
    have hyg : y.game ∈ rest := collectPicks_game_mem hg rest y hy
    intro hk
    have hgame : x.game = y.game := congrArg Prod.fst hk
    rw [hxg] at hgame
    rw [← hgame] at hyg
    exact hnodup.1 hyg

/-- Picks collected over labels that avoid `g` contain no bet on game `g`. -/
theorem collectPicks_countP_zero {groups : List (String × List BetOpportunity)}
    (hg : ∀ kv ∈ groups, ∀ b ∈ kv.2, b.game = kv.1) (g : String)
    (labels : List String) (hnot : g ∉ labels) :
    (collectPicks groups labels).countP (fun b => decide (b.game = g)) = 0 := by
  rw [List.countP_eq_zero]
  intro b hb
  have := collectPicks_game_mem hg labels b hb
  simp only [decide_eq_true_eq]
  intro hbg
  rw [hbg] at this
  exact hnot this

/-- Over pairwise-distinct labels, at most two collected picks bet on any one
game. -/
theorem collectPicks_countP {groups : List (String × List BetOpportunity)}
    (hg : ∀ kv ∈ groups, ∀ b ∈ kv.2, b.game = kv.1) (g : String) :
    ∀ labels : List String, labels.Nodup →
      (collectPicks groups labels).countP (fun b => decide (b.game = g)) ≤ 2 := by
  intro labels
  induction labels with
  | nil => intro _; simp [collectPicks]
  | cons label rest ih =>
    intro hnodup
    rw [List.nodup_cons] at hnodup
    rw [collectPicks, List.countP_append]
    by_cases hcase : label = g
    · subst hcase
      have hz : (collectPicks groups rest).countP (fun b => decide (b.game = label)) = 0 :=
        collectPicks_countP_zero hg label rest hnodup.1
      have hc : (picksForGame (lookupGame groups label)).countP
          (fun b => decide (b.game = label)) ≤ 2 :=
        le_trans (List.countP_le_length _) (picksForGame_length _)
      omega
    · have hz : (picksForGame (lookupGame groups label)).countP
          (fun b => decide (b.game = g)) = 0 := by
        rw [List.countP_eq_zero]
        intro b hb
        have := picksForGame_game (lookupGame_game hg label) b hb
        simp only [decide_eq_true_eq]
        intro hbg
        rw [hbg] at this
        exact hcase this.symm
      have := ih hnodup.2
      omega

/-- The labels of `game_scores` are exactly the keys of the `games` dict. -/
theorem gameScores_map_snd (groups : List (String × List BetOpportunity)) :
    (gameScores groups).map Prod.snd = groups.map Prod.fst := by
  unfold gameScores
  rw [List.map_map]
  rfl

/-- The selected game labels are pairwise distinct. -/
theorem selectedLabels_nodup (all_opportunities : List BetOpportunity) (top_n : ℕ) :
    (selectedLabels all_opportunities top_n).Nodup := by
  unfold selectedLabels
  have h1 : ((gameScores (groupByGame (dedupBets all_opportunities))).map Prod.snd).Nodup := by
    rw [gameScores_map_snd]
    exact groupByGame_keys_nodup _
  have hperm : ((gameScores (groupByGame (dedupBets all_opportunities))).mergeSort
      scoreDescLe).Perm (gameScores (groupByGame (dedupBets all_opportunities))) :=
    List.mergeSort_perm _ _
  have h2 : (((gameScores (groupByGame (dedupBets all_opportunities))).mergeSort
      scoreDescLe).map Prod.snd).Nodup :=
    ((hperm.map Prod.snd).nodup_iff).mpr h1
  exact ((List.take_sublist top_n _).map Prod.snd).nodup h2

/-- At most `top_n` game labels are selected. -/
theorem selectedLabels_length (all_opportunities : List BetOpportunity) (top_n : ℕ) :
    (selectedLabels all_opportunities top_n).length ≤ top_n := by
  unfold selectedLabels
  rw [List.length_map, List.length_take]
  exact min_le_left _ _

/-- `safetyDescLe` is transitive. -/
theorem safetyDescLe_trans (a b c : BetOpportunity) (hab : safetyDescLe a b = true)
    (hbc : safetyDescLe b c = true) : safetyDescLe a c = true := by
  simp only [safetyDescLe, decide_eq_true_eq] at hab hbc ⊢
  exact le_trans hbc hab

/-- `safetyDescLe` is total. -/
theorem safetyDescLe_total (a b : BetOpportunity) :
    (safetyDescLe a b || safetyDescLe b a) = true := by
  simp only [safetyDescLe, Bool.or_eq_true, decide_eq_true_eq]
  exact le_total b.safety_score a.safety_score

/-- C3: for every input list of opportunities and every `top_n`, the list
returned by `select_best_bets` has pairwise-distinct
(game, bet_type, bet_side) keys (so at most one opportunity per key), contains
at most 2 opportunities per game, covers at most `top_n` distinct games, and
is sorted by safety score in descending order. -/
theorem select_best_bets_props (all_opportunities : List BetOpportunity) (top_n : ℕ) :
    (select_best_bets all_opportunities top_n).Pairwise
        (fun a b => betKey a ≠ betKey b) ∧
      (∀ g : String, (select_best_bets all_opportunities top_n).countP
        (fun b => decide (b.game = g)) ≤ 2) ∧
      ((select_best_bets all_opportunities top_n).map
        (fun b => b.game)).toFinset.card ≤ top_n ∧
      (select_best_bets all_opportunities top_n).Pairwise
        (fun a b => b.safety_score ≤ a.safety_score) := by
  have hg := groupByGame_mem_game (dedupBets all_opportunities)
  have hnodup := selectedLabels_nodup all_opportunities top_n
  have hperm : (select_best_bets all_opportunities top_n).Perm
      (collectPicks (groupByGame (dedupBets all_opportunities))
        (selectedLabels all_opportunities top_n)) := List.mergeSort_perm _ _
  refine ⟨?_, fun g => ?_, ?_, ?_⟩
  · exact (hperm.pairwise_iff fun h => Ne.symm h).mpr
      (collectPicks_pairwise hg _ hnodup)
  · rw [List.Perm.countP_eq _ hperm]
    exact collectPicks_countP hg g _ hnodup
  · have hsub : ((select_best_bets all_opportunities top_n).map
        (fun b => b.game)).toFinset ⊆
        (selectedLabels all_opportunities top_n).toFinset := by
      intro x hx
      rw [List.mem_toFinset, List.mem_map] at hx
      obtain ⟨b, hb, rfl⟩ := hx
      rw [List.mem_toFinset]
      exact collectPicks_game_mem hg _ b (hperm.mem_iff.mp hb)
    calc ((select_best_bets all_opportunities top_n).map
          (fun b => b.game)).toFinset.card
        ≤ (selectedLabels all_opportunities top_n).toFinset.card :=
          Finset.card_le_card hsub
      _ ≤ (selectedLabels all_opportunities top_n).length := List.toFinset_card_le _
      _ ≤ top_n := selectedLabels_length _ _
  · have hs : ((collectPicks (groupByGame (dedupBets all_opportunities))
        (selectedLabels all_opportunities top_n)).mergeSort safetyDescLe).Pairwise
        (fun a b => safetyDescLe a b = true) :=
      List.sorted_mergeSort safetyDescLe_trans safetyDescLe_total _
    exact List.Pairwise.imp (fun h => by simpa [safetyDescLe] using h) hs

/-- Witness for C6: a one-row log for the named team builds a profile. -/
theorem build_team_profile_error_iff_witness :
    build_team_profile [sampleRow] "Duke" "150" none =
      Except.ok (profileFromRows [sampleRow] "Duke" "150" none
        ([sampleRow].filter (fun r => decide (r.team = "Duke")))) :=
  (build_team_profile_error_iff [sampleRow] "Duke" "150" none).2
    (by simp [sampleRow])

end CBB
